import Mathlib

/-!
Verification development for the subs-check scheduling/lifecycle core.

The Go source is shallowly embedded:
* `SubsState` (src/app/subs_state.go) is a ledger mapping source URLs to
  consecutive-failure counts.  Go's `map[string]int` is embedded as an
  association list `List (String × Int)` with Go-map read semantics
  (a missing key reads as 0); values are `Int` because Go's `int` is signed
  and `encoding/json` will happily unmarshal a negative number into it.
* Effectful collaborators (the file system, the YAML document, `slog`) are
  embedded as explicit data: `StateFile` enumerates the observable states of
  `<configDir>/subs_state.json`, `ConfigFile` the observable states of the
  YAML configuration, and `LogEvent` the emitted log lines.
-/

/-- A log line emitted via `slog`, tagged with its level. -/
inductive LogEvent
  | debugMsg (msg : String)
  | infoMsg (msg : String)
  | warnMsg (msg : String)
  | errorMsg (msg : String)
deriving DecidableEq, Repr

/-- `SubsState` from src/app/subs_state.go: `FailCounts map[string]int`,
embedded as an association list. -/
structure SubsState where
  failCounts : List (String × Int)
deriving DecidableEq, Repr

/-- `NewSubsState`: the empty ledger. -/
def NewSubsState : SubsState := ⟨[]⟩

/-- Reading `s.FailCounts[url]` in Go: the stored value, or 0 when the key is
absent (Go map zero value). -/
def lookupCount (s : SubsState) (url : String) : Int :=
  (((s.failCounts.find? (fun p => p.1 == url)).map (fun p => p.2)).getD 0)

/-- Writing `s.FailCounts[url] = c` in Go: replace the entry if the key is
present, insert it otherwise. -/
def setCount (l : List (String × Int)) (url : String) (c : Int) :
    List (String × Int) :=
  match l with
  | [] => [(url, c)]
  | (k, v) :: t => if k == url then (k, c) :: t else (k, v) :: setCount t url c

/-- `UpdateFailCount` (src/app/subs_state.go:69-80): failed → increment via
`s.FailCounts[url]++`; success → set to 0, logging the recovery at debug level
when the previous count was positive.  Returns the new state and the emitted
log lines. -/
def UpdateFailCount (s : SubsState) (url : String) (failed : Bool) :
    SubsState × List LogEvent :=
  if failed then
    let c := lookupCount s url + 1
    (⟨setCount s.failCounts url c⟩, [.debugMsg ("订阅失败计数更新 " ++ url)])
  else
    let logs : List LogEvent :=
      if 0 < lookupCount s url then [.debugMsg ("订阅成功，清零失败计数 " ++ url)]
      else []
    (⟨setCount s.failCounts url 0⟩, logs)

/-- `GetFailedUrls` (src/app/subs_state.go:83-96): `nil` when
`threshold <= 0`, otherwise every URL whose count satisfies
`count >= threshold`. -/
def GetFailedUrls (s : SubsState) (threshold : Int) : List String :=
  if threshold ≤ 0 then []
  else (s.failCounts.filter (fun p => threshold ≤ p.2)).map (fun p => p.1)

/-- `CleanupUrls` (src/app/subs_state.go:99-104): `delete(s.FailCounts, url)`
for each listed URL. -/
def CleanupUrls (s : SubsState) (urls : List String) : SubsState :=
  ⟨urls.foldl (fun l url => l.filter (fun p => p.1 != url)) s.failCounts⟩

/-- `GetFailCount` (src/app/subs_state.go:107-109). -/
def GetFailCount (s : SubsState) (url : String) : Int := lookupCount s url

/-- The observable states of `<configDir>/subs_state.json` as seen by
`LoadSubsState`: absent (`os.Stat` reports not-exist), present but unreadable
(`os.ReadFile` fails with message `m`), present but not valid JSON, or parsed
into fail counts (`none` models a JSON document whose `fail_counts` field is
missing or null, leaving the Go map nil). -/
inductive StateFile
  | absent
  | readError (m : String)
  | unparsable
  | parsed (fc : Option (List (String × Int)))
deriving DecidableEq, Repr

/-- `LoadSubsState` (src/app/subs_state.go:24-50): absent file → fresh state;
read error → propagated error; unmarshal failure → warning and fresh state;
nil map after unmarshal → replaced by an empty map. -/
def LoadSubsState (f : StateFile) : Except String SubsState × List LogEvent :=
  match f with
  | .absent => (.ok NewSubsState, [.debugMsg "订阅状态文件不存在，创建新状态"])
  | .readError m => (.error ("读取订阅状态文件失败: " ++ m), [])
  | .unparsable => (.ok NewSubsState, [.warnMsg "解析订阅状态文件失败，创建新状态"])
  | .parsed none => (.ok NewSubsState, [])
  | .parsed (some fc) => (.ok ⟨fc⟩, [])

/-- `SaveToFile` (src/app/subs_state.go:53-66) serializes the full map; a
later `LoadSubsState` of the written file parses back exactly the entries. -/
def SaveToFile (s : SubsState) : StateFile := .parsed (some s.failCounts)

/-- Applying `UpdateFailCount` for one URL over a sequence of outcomes
(`true` = failed round). -/
def recordSeq (s : SubsState) (url : String) (outcomes : List Bool) : SubsState :=
  outcomes.foldl (fun st f => (UpdateFailCount st url f).1) s

/-- All counts in the ledger are non-negative. -/
def NonnegState (s : SubsState) : Prop := ∀ p ∈ s.failCounts, (0 : Int) ≤ p.2

-- Helper lemmas about `setCount` and `lookupCount`.

theorem lookupCount_setCount_self (l : List (String × Int)) (url : String)
    (c : Int) : lookupCount ⟨setCount l url c⟩ url = c := by
  induction l with
  | nil => simp [lookupCount, setCount]
  | cons p t ih =>
    obtain ⟨k, v⟩ := p
    by_cases h : k = url
    · simp [lookupCount, setCount, h]
    · simpa [lookupCount, setCount, h, List.find?] using ih

theorem nonneg_setCount (l : List (String × Int)) (url : String) (c : Int)
    (hl : ∀ p ∈ l, (0 : Int) ≤ p.2) (hc : 0 ≤ c) :
    ∀ p ∈ setCount l url c, (0 : Int) ≤ p.2 := by
  induction l with
  | nil =>
    intro p hp
    simp only [setCount, List.mem_singleton] at hp
    simpa [hp] using hc
  | cons q t ih =>
    obtain ⟨k, v⟩ := q
    intro p hp
    simp only [setCount] at hp
    by_cases h : (k == url) = true
    · rw [if_pos h] at hp
      rcases List.mem_cons.mp hp with hp | hp
      · simpa [hp] using hc
      · exact hl p (List.mem_cons_of_mem _ hp)
    · rw [if_neg h] at hp
      rcases List.mem_cons.mp hp with hp | hp
      · exact hl p (by simp [hp])
      · exact ih (fun r hr => hl r (List.mem_cons_of_mem _ hr)) p hp

theorem nonneg_lookupCount (s : SubsState) (hs : NonnegState s) (url : String) :
    0 ≤ lookupCount s url := by
  unfold lookupCount
  cases h : s.failCounts.find? (fun p => p.1 == url) with
  | none => simp
  | some p =>
    have hp : p ∈ s.failCounts := List.mem_of_find?_eq_some h
    simpa using hs p hp

/-!
## SourceListEditor: `removeUrlsFromConfig` (src/unnamed/part_000:314-380)

The YAML configuration is embedded at the level the editor observes it:
the file may be unreadable, fail to parse, or parse into a document whose
`sub-urls` field is absent, present-but-not-a-list, or a list of entries
that are either plain strings or opaque non-string values.  `rest` stands
for every other field of the document, which the editor never touches.
-/

/-- One entry of the `sub-urls` list: a plain string, or an opaque
non-string YAML value (passed through unchanged by the editor). -/
inductive YamlEntry
  | str (s : String)
  | nonStr (tag : Nat)
deriving DecidableEq, Repr

/-- The `sub-urls` field of the parsed document. -/
inductive SubUrlsField
  | absent
  | notList
  | list (es : List YamlEntry)
deriving DecidableEq, Repr

/-- The parsed configuration document: the `sub-urls` field plus an opaque
stand-in for every other field (preserved verbatim by the editor). -/
structure ConfigDoc where
  subUrls : SubUrlsField
  rest : Nat
deriving DecidableEq, Repr

/-- The observable states of the configuration file as seen by the editor. -/
inductive ConfigFile
  | unreadable
  | unparsableYaml
  | doc (d : ConfigDoc)
deriving DecidableEq, Repr

/-- The filtering loop of `removeUrlsFromConfig` (src/unnamed/part_000:346-358):
keeps non-string entries and strings not in the removal set, and counts the
removed string entries. -/
def filterSubUrls (es : List YamlEntry) (ids : List String) :
    List YamlEntry × Nat :=
  match es with
  | [] => ([], 0)
  | e :: rest =>
    let fc := filterSubUrls rest ids
    match e with
    | .str s => if ids.contains s then (fc.1, fc.2 + 1) else (.str s :: fc.1, fc.2)
    | .nonStr t => (.nonStr t :: fc.1, fc.2)

/-- Result of one `removeUrlsFromConfig` call: the resulting file state,
whether the file was rewritten (`os.WriteFile` reached), and the returned
error value. -/
structure RemoveResult where
  file : ConfigFile
  wrote : Bool
  res : Except String Unit
deriving Repr

/-- `removeUrlsFromConfig` (src/unnamed/part_000:314-380): read + parse the
config; missing `sub-urls` → no-op success; non-list `sub-urls` → error;
otherwise filter the list, skip the rewrite when `removedCount == 0`, and
rewrite the document with the filtered list otherwise. -/
def removeUrlsFromConfig (cf : ConfigFile) (ids : List String) : RemoveResult :=
  match cf with
  | .unreadable => ⟨.unreadable, false, .error "读取配置文件失败"⟩
  | .unparsableYaml => ⟨.unparsableYaml, false, .error "解析配置文件失败"⟩
  | .doc d =>
    match d.subUrls with
    | .absent => ⟨.doc d, false, .ok ()⟩
    | .notList => ⟨.doc d, false, .error "sub-urls字段格式错误"⟩
    | .list es =>
      let fc := filterSubUrls es ids
      if fc.2 = 0 then ⟨.doc d, false, .ok ()⟩
      else ⟨.doc ⟨.list fc.1, d.rest⟩, true, .ok ()⟩

/-- Number of entries of the config's source list that match the removal
set (the `removedCount` the editor would compute); 0 when there is no
well-formed list. -/
def matchCount (cf : ConfigFile) (ids : List String) : Nat :=
  match cf with
  | .doc d =>
    match d.subUrls with
    | .list es => (filterSubUrls es ids).2
    | _ => 0
  | _ => 0

theorem filterSubUrls_no_match (es : List YamlEntry) (ids : List String) :
    (filterSubUrls (filterSubUrls es ids).1 ids).2 = 0 := by
  induction es with
  | nil => rfl
  | cons e rest ih =>
    cases e with
    | str s =>
      by_cases h : ids.contains s = true
      · simp only [filterSubUrls, h, if_true]
        exact ih
      · simp only [filterSubUrls, h, if_false]
        exact ih
    | nonStr t =>
      simp only [filterSubUrls]
      exact ih

/-!
## LifecycleManager: `handleSubsLifecycle` (src/unnamed/part_000:258-312)

The environment collects exactly the inputs the Go function consumes:
`config.GlobalConfig.SubUrlsFailRemove` (a Go `int`), the round statistics
from `proxies.GetAndResetRunStats()`, the observable state of the ledger
file and of the configuration file, and whether `SaveToFile` would succeed.
The result records the returned error value plus the observable effects:
whether the count-update step ran, whether `SaveToFile` was reached, the
in-memory ledger at the end, the configuration file afterwards, and the
log lines.
-/

/-- Inputs of one `handleSubsLifecycle` call. -/
structure LifecycleEnv where
  threshold : Int
  successUrls : List String
  failedUrls : List String
  stateFile : StateFile
  configFile : ConfigFile
  saveOk : Bool

/-- Observable outcome of one `handleSubsLifecycle` call. -/
structure LifecycleResult where
  ret : Except String Unit
  recorded : Bool
  removeErrored : Bool
  persistAttempted : Bool
  state : Option SubsState
  config : ConfigFile
  logs : List LogEvent

/-- The per-URL update loops of `handleSubsLifecycle`
(src/unnamed/part_000:282-287), accumulating the ledger and the logs. -/
def recordOutcomes (s : SubsState) (urls : List String) (failed : Bool) :
    SubsState × List LogEvent :=
  urls.foldl
    (fun acc u =>
      let r := UpdateFailCount acc.1 u failed
      (r.1, acc.2 ++ r.2))
    (s, [])

/-- `SaveToFile`'s returned error value, given whether the write succeeds. -/
def saveRet (ok : Bool) : Except String Unit :=
  if ok then .ok () else .error "保存订阅状态失败"

/-- `handleSubsLifecycle` (src/unnamed/part_000:259-312): feature disabled or
no statistics → immediate success; ledger load error → propagated; otherwise
record every outcome, compute the eviction set, possibly edit the config
(propagating an edit error, which skips the save), clean evicted entries,
and finally call `SaveToFile`. -/
def handleSubsLifecycle (env : LifecycleEnv) : LifecycleResult :=
  if env.threshold ≤ 0 then
    ⟨.ok (), false, false, false, none, env.configFile, []⟩
  else if env.successUrls.isEmpty && env.failedUrls.isEmpty then
    ⟨.ok (), false, false, false, none, env.configFile, []⟩
  else
    match LoadSubsState env.stateFile with
    | (.error e, lgs) =>
      ⟨.error ("加载订阅状态失败: " ++ e), false, false, false, none,
        env.configFile, lgs⟩
    | (.ok st, lgs) =>
      let p1 := recordOutcomes st env.successUrls false
      let p2 := recordOutcomes p1.1 env.failedUrls true
      let urlsToRemove := GetFailedUrls p2.1 env.threshold
      let baseLogs := lgs ++ p1.2 ++ p2.2
      if urlsToRemove.isEmpty then
        ⟨saveRet env.saveOk, true, false, true, some p2.1, env.configFile,
          baseLogs⟩
      else
        let rr := removeUrlsFromConfig env.configFile urlsToRemove
        match rr.res with
        | .error e =>
          ⟨.error ("从配置文件移除URL失败: " ++ e), true, true, false,
            some p2.1, rr.file, baseLogs ++ [.warnMsg "发现需要移除的订阅"]⟩
        | .ok _ =>
          let st3 := CleanupUrls p2.1 urlsToRemove
          ⟨saveRet env.saveOk, true, false, true, some st3, rr.file,
            baseLogs ++ [.warnMsg "发现需要移除的订阅", .infoMsg "已自动移除失败订阅"]⟩

/-!
## Scheduler: `checkProxies`, `triggerCheck`, `TriggerCheck`
(src/unnamed/part_000:100-256)
-/

/-- Inputs of one `checkProxies` call: the result of `check.Check()` (its
error message, if any) and the lifecycle inputs. -/
structure CheckEnv where
  checkErr : Option String
  lifecycle : LifecycleEnv

/-- Observable outcome of one `checkProxies` call. -/
structure CheckResult where
  ret : Except String Unit
  lifecycleRes : Option LifecycleResult
  logs : List LogEvent

/-- `checkProxies` (src/unnamed/part_000:226-256): a `check.Check()` error is
returned; a `handleSubsLifecycle` error is only logged (`slog.Error`), and
the function still returns nil. -/
def checkProxies (env : CheckEnv) : CheckResult :=
  match env.checkErr with
  | some e => ⟨.error ("检测代理失败: " ++ e), none, []⟩
  | none =>
    let r := handleSubsLifecycle env.lifecycle
    match r.ret with
    | .error e => ⟨.ok (), some r, [.errorMsg ("处理订阅生命周期失败 " ++ e)]⟩
    | .ok _ => ⟨.ok (), some r, []⟩

/-- How one `triggerCheck` invocation ends. -/
inductive TCResult
  | skipped
  | fatal (exitCode : Nat)
  | done
deriving DecidableEq, Repr

/-- Observable outcome of one `triggerCheck` invocation: how it ended, the
value of the `checking` guard afterwards, and the log lines. -/
structure TCOut where
  result : TCResult
  guard : Bool
  logs : List LogEvent

/-- `triggerCheck` (src/unnamed/part_000:195-223): the atomic
`CompareAndSwap(false, true)` on `app.checking`; a loser logs a warning and
returns with no side effects; on a `checkProxies` error the winner logs and
calls `os.Exit(1)` (so the deferred guard release never runs); otherwise the
deferred `app.checking.Store(false)` releases the guard. -/
def triggerCheck (guard : Bool) (env : CheckEnv) : TCOut :=
  if guard then
    ⟨.skipped, true, [.warnMsg "已有检测正在进行，跳过本次检测"]⟩
  else
    let c := checkProxies env
    match c.ret with
    | .error e => ⟨.fatal 1, true, c.logs ++ [.errorMsg ("检测代理失败: " ++ e)]⟩
    | .ok _ => ⟨.done, false, c.logs⟩

/-- N concurrent `triggerCheck` invocations racing on the guard.  The
compare-and-exchange is the unique serialization point, so the race is
embedded as the attempts hitting the atomic flag one after another, all
while the winning round is still running (none of the N releases the guard
in between).  Returns (final guard, winners, skipped). -/
def fireMany : Nat → Bool → Bool × Nat × Nat
  | 0, g => (g, 0, 0)
  | n + 1, g =>
    if g then
      let r := fireMany n g
      (r.1, r.2.1, r.2.2 + 1)
    else
      let r := fireMany n true
      (r.1, r.2.1 + 1, r.2.2)

/-- A sequence of rounds run one after another through `triggerCheck`,
threading the guard; returns the exit code if some round was fatal. -/
def runRounds (guard : Bool) : List CheckEnv → Option Nat
  | [] => none
  | env :: rest =>
    let o := triggerCheck guard env
    match o.result with
    | .fatal c => some c
    | _ => runRounds o.guard rest

/-- `TriggerCheck` (src/unnamed/part_000:185-192): non-blocking send on the
unbuffered `checkChan`; `true` when the send is paired with the main loop's
receive, `false` (warning, no other effect) when it is not immediately
receivable. -/
def TriggerCheck (receivable : Bool) : Bool × List LogEvent :=
  if receivable then (true, [.infoMsg "手动触发检测"])
  else (false, [.warnMsg "已有检测正在进行，忽略本次触发"])

/-- Events hitting the scheduler: a manual trigger (with the channel
receivable or not), or the in-flight round finishing (releasing the guard). -/
inductive SchedEv
  | manual (receivable : Bool)
  | roundEnd
deriving DecidableEq, Repr

/-- Scheduler state for the manual-trigger model: the `checking` guard, the
number of validation rounds started, and the log lines. -/
structure SchedState where
  guard : Bool
  started : Nat
  logs : List LogEvent

/-- One scheduler event.  A received manual trigger is handed to the main
loop (src/unnamed/part_000:122-126), which spawns `triggerCheck`; its
compare-and-exchange either starts a round or logs a skip.  A dropped
trigger only logs the busy warning.  `roundEnd` is the running round's
deferred guard release. -/
def stepSched (s : SchedState) (e : SchedEv) : SchedState :=
  match e with
  | .manual r =>
    let t := TriggerCheck r
    if t.1 then
      if s.guard then
        ⟨s.guard, s.started,
          s.logs ++ t.2 ++ [.warnMsg "已有检测正在进行，跳过本次检测"]⟩
      else ⟨true, s.started + 1, s.logs ++ t.2⟩
    else ⟨s.guard, s.started, s.logs ++ t.2⟩
  | .roundEnd => ⟨false, s.started, s.logs⟩

/-- Folding a sequence of scheduler events. -/
def runSched (s : SchedState) (evs : List SchedEv) : SchedState :=
  evs.foldl stepSched s

/-- Number of `roundEnd` events in a trace. -/
def countRoundEnds (evs : List SchedEv) : Nat :=
  evs.countP (fun e => match e with | .roundEnd => true | _ => false)

/-- Potential for the manual-trigger model: rounds started so far, plus one
if the guard is free (a free guard lets at most one more trigger win it). -/
def schedPotential (s : SchedState) : Nat :=
  s.started + (if s.guard then 0 else 1)

theorem stepSched_potential (s : SchedState) (e : SchedEv) :
    schedPotential (stepSched s e) ≤
      schedPotential s + (if e = SchedEv.roundEnd then 1 else 0) := by
  cases e with
  | manual r =>
    cases r
    · simp [stepSched, TriggerCheck, schedPotential]
    · by_cases hg : s.guard
      · simp [stepSched, TriggerCheck, schedPotential, hg]
      · simp [stepSched, TriggerCheck, schedPotential, hg]
  | roundEnd =>
    by_cases hg : s.guard <;> simp [stepSched, schedPotential, hg]

theorem runSched_potential (evs : List SchedEv) : ∀ s : SchedState,
    schedPotential (runSched s evs) ≤ schedPotential s + countRoundEnds evs := by
  induction evs with
  | nil => intro s; simp [runSched, countRoundEnds]
  | cons e rest ih =>
    intro s
    have h2 := ih (stepSched s e)
    have h3 := stepSched_potential s e
    have h4 : countRoundEnds (e :: rest) =
        countRoundEnds rest + (if e = SchedEv.roundEnd then 1 else 0) := by
      cases e <;> simp [countRoundEnds, List.countP_cons]
    have h1 : runSched s (e :: rest) = runSched (stepSched s e) rest := rfl
    rw [h1]
    omega

/-- While the guard is held, every further attempt loses the
compare-and-exchange: no winners, every attempt skipped. -/
theorem fireMany_held (m : Nat) : fireMany m true = (true, 0, m) := by
  induction m with
  | zero => rfl
  | succ k ih => simp [fireMany, ih]

/-- A round whose `checkProxies` succeeds ends with `.done` and releases the
guard (the deferred `Store(false)`). -/
theorem triggerCheck_ok (env : CheckEnv) (h : env.checkErr = none) :
    (triggerCheck false env).result = .done ∧ (triggerCheck false env).guard = false := by
  unfold triggerCheck checkProxies
  rw [h]
  cases hret : (handleSubsLifecycle env.lifecycle).ret <;> simp [hret]

/-!
## Claim theorems
-/

/-- Claim C4 (confirmed): recording a failed outcome increments the source's
count by exactly 1; recording a success sets it to exactly 0 and emits the
recovery debug log exactly when the previous count was positive; the
sequence [fail, fail, success, fail] from the empty ledger ends at count 1. -/
theorem claim4_record_outcome (s : SubsState) (url : String) :
    lookupCount (UpdateFailCount s url true).1 url = lookupCount s url + 1 ∧
    lookupCount (UpdateFailCount s url false).1 url = 0 ∧
    (UpdateFailCount s url false).2 =
      (if 0 < lookupCount s url
       then [LogEvent.debugMsg ("订阅成功，清零失败计数 " ++ url)] else []) ∧
    lookupCount (recordSeq NewSubsState "A" [true, true, false, true]) "A" = 1 := by
  refine ⟨?_, ?_, rfl, by decide⟩
  · simp only [UpdateFailCount, if_true]
    exact lookupCount_setCount_self s.failCounts url (lookupCount s url + 1)
  · simp only [UpdateFailCount, if_false]
    exact lookupCount_setCount_self s.failCounts url 0

/-- Claim C5 (confirmed): `GetFailedUrls` returns the empty list whenever the
threshold is ≤ 0, and for any threshold a URL is selected exactly when the
threshold is positive and the ledger records a count ≥ threshold for it. -/
theorem claim5_sources_at_or_above (s : SubsState) (t : Int) (url : String) :
    (t ≤ 0 → GetFailedUrls s t = []) ∧
    (url ∈ GetFailedUrls s t ↔
      0 < t ∧ ∃ c, (url, c) ∈ s.failCounts ∧ t ≤ c) := by
  constructor
  · intro h
    simp [GetFailedUrls, h]
  · by_cases h : t ≤ 0
    · simp only [GetFailedUrls, if_pos h, List.not_mem_nil, false_iff]
      rintro ⟨ht, -⟩
      omega
    · simp only [GetFailedUrls, if_neg h, List.mem_map, List.mem_filter,
        decide_eq_true_eq]
      constructor
      · rintro ⟨⟨k, c⟩, ⟨hm, hc⟩, rfl⟩
        exact ⟨by omega, c, hm, hc⟩
      · rintro ⟨-, c, hm, hc⟩
        exact ⟨(url, c), ⟨hm, hc⟩, rfl⟩

/-- Witness for C5 at a concrete ledger. -/
theorem claim5_witness :
    GetFailedUrls ⟨[("a", 5)]⟩ 0 = [] ∧
    ("a" ∈ GetFailedUrls ⟨[("a", 5)]⟩ 3 ↔
      (0 : Int) < 3 ∧ ∃ c, ("a", c) ∈ [(("a" : String), (5 : Int))] ∧ 3 ≤ c) :=
  ⟨(claim5_sources_at_or_above ⟨[("a", 5)]⟩ 0 "a").1 (by decide),
   (claim5_sources_at_or_above ⟨[("a", 5)]⟩ 3 "a").2⟩

/-- Claim C7 (confirmed): an absent state file yields an empty ledger and no
error; a present but unparsable file yields a warning and an empty ledger
with no error; an error is returned exactly when the file exists but reading
it fails, so a parse failure is never propagated. -/
theorem claim7_load_absent_or_corrupt :
    LoadSubsState .absent =
      (.ok NewSubsState, [.debugMsg "订阅状态文件不存在，创建新状态"]) ∧
    LoadSubsState .unparsable =
      (.ok NewSubsState, [.warnMsg "解析订阅状态文件失败，创建新状态"]) ∧
    (∀ f : StateFile,
      (∃ e, (LoadSubsState f).1 = .error e) ↔ ∃ m, f = .readError m) := by
  refine ⟨rfl, rfl, ?_⟩
  intro f
  cases f with
  | absent => simp [LoadSubsState]
  | readError m => simp [LoadSubsState]
  | unparsable => simp [LoadSubsState]
  | parsed fc => cases fc <;> simp [LoadSubsState]

/-- Every entry surviving `CleanupUrls` was already an entry of the input
ledger. -/
theorem cleanupUrls_subset (urls : List String) :
    ∀ l : List (String × Int), ∀ p ∈ (CleanupUrls ⟨l⟩ urls).failCounts, p ∈ l := by
  induction urls with
  | nil => intro l p hp; simpa [CleanupUrls] using hp
  | cons u rest ih =>
    intro l p hp
    have h1 : (CleanupUrls ⟨l⟩ (u :: rest)).failCounts =
        (CleanupUrls ⟨l.filter (fun q => q.1 != u)⟩ rest).failCounts := rfl
    rw [h1] at hp
    exact List.mem_of_mem_filter (ih (l.filter (fun q => q.1 != u)) p hp)

/-- Counterexample to claim C6: `LoadSubsState` returns a parsable ledger
file's counts verbatim, so a file recording a negative count loads as a
ledger with a negative count. -/
theorem claim6_counterexample :
    (LoadSubsState (.parsed (some [("a", -1)]))).1 = .ok ⟨[("a", -1)]⟩ ∧
    lookupCount ⟨[("a", -1)]⟩ "a" = -1 ∧
    ¬ NonnegState ⟨[("a", -1)]⟩ := by
  refine ⟨rfl, rfl, ?_⟩
  intro h
  have := h ("a", -1) (by simp)
  omega

/-- Claim C6 (corrected): counts are non-negative in the fresh ledger and are
preserved by every operation (`UpdateFailCount` for success and failure,
`CleanupUrls`, persist-then-load round trips) and by loads of absent,
unparsable or nil-map files; but `LoadSubsState` returns a parsable file's
counts verbatim, so non-negativity of a loaded ledger holds only when the
file's recorded counts are themselves non-negative. -/
theorem claim6_nonneg_preserved :
    NonnegState NewSubsState ∧
    (∀ (s : SubsState) (url : String) (failed : Bool),
      NonnegState s → NonnegState (UpdateFailCount s url failed).1) ∧
    (∀ (s : SubsState) (urls : List String),
      NonnegState s → NonnegState (CleanupUrls s urls)) ∧
    (∀ f : StateFile, f = .absent ∨ f = .unparsable ∨ f = .parsed none →
      ∀ st, (LoadSubsState f).1 = .ok st → NonnegState st) ∧
    (∀ (fc : List (String × Int)) (st : SubsState),
      (∀ p ∈ fc, (0 : Int) ≤ p.2) →
      (LoadSubsState (.parsed (some fc))).1 = .ok st → NonnegState st) ∧
    (∀ (s : SubsState) (st : SubsState),
      NonnegState s → (LoadSubsState (SaveToFile s)).1 = .ok st → NonnegState st) := by
  refine ⟨?_, ?_, ?_, ?_, ?_, ?_⟩
  · intro p hp
    simp [NewSubsState] at hp
  · intro s url failed hs
    cases failed with
    | true =>
      simp only [UpdateFailCount, if_true]
      exact nonneg_setCount s.failCounts url (lookupCount s url + 1) hs
        (by have := nonneg_lookupCount s hs url; omega)
    | false =>
      simp only [UpdateFailCount, if_false]
      exact nonneg_setCount s.failCounts url 0 hs le_rfl
  · intro s urls hs p hp
    exact hs p (cleanupUrls_subset urls s.failCounts p hp)
  · rintro f (rfl | rfl | rfl) st hst <;>
      (injection hst with h; subst h; intro p hp; simp [NewSubsState] at hp)
  · intro fc st hfc hst
    injection hst with h
    subst h
    exact hfc
  · intro s st hs hst
    injection hst with h
    subst h
    exact hs

/-- Witness for C6's preserved part at a concrete ledger. -/
theorem claim6_witness :
    NonnegState (UpdateFailCount ⟨[("a", 2)]⟩ "a" true).1 :=
  claim6_nonneg_preserved.2.1 ⟨[("a", 2)]⟩ "a" true
    (by unfold NonnegState; decide)

/-- Claim C8 (confirmed): when zero entries of the source list match the
removal set the editor does not rewrite the file and leaves the document
untouched, and a second call with the same removal set is a no-op: it never
rewrites, leaves the file exactly as the first call left it, and returns the
same error value as the first call. -/
theorem claim8_remove_no_match_idempotent (cf : ConfigFile) (ids : List String) :
    (matchCount cf ids = 0 →
      (removeUrlsFromConfig cf ids).file = cf ∧
      (removeUrlsFromConfig cf ids).wrote = false) ∧
    ((removeUrlsFromConfig (removeUrlsFromConfig cf ids).file ids).file =
        (removeUrlsFromConfig cf ids).file ∧
     (removeUrlsFromConfig (removeUrlsFromConfig cf ids).file ids).wrote = false ∧
     (removeUrlsFromConfig (removeUrlsFromConfig cf ids).file ids).res =
        (removeUrlsFromConfig cf ids).res) := by
  cases cf with
  | unreadable => exact ⟨fun _ => ⟨rfl, rfl⟩, rfl, rfl, rfl⟩
  | unparsableYaml => exact ⟨fun _ => ⟨rfl, rfl⟩, rfl, rfl, rfl⟩
  | doc d =>
    obtain ⟨su, rest⟩ := d
    cases su with
    | absent => exact ⟨fun _ => ⟨rfl, rfl⟩, rfl, rfl, rfl⟩
    | notList => exact ⟨fun _ => ⟨rfl, rfl⟩, rfl, rfl, rfl⟩
    | list es =>
      by_cases h : (filterSubUrls es ids).2 = 0
      · constructor
        · intro _
          constructor <;> simp [removeUrlsFromConfig, h]
        · refine ⟨?_, ?_, ?_⟩ <;> simp [removeUrlsFromConfig, h]
      · constructor
        · intro hm
          exact absurd hm (by simpa [matchCount] using h)
        · have h2 := filterSubUrls_no_match es ids
          refine ⟨?_, ?_, ?_⟩ <;>
            simp [removeUrlsFromConfig, h, h2]

/-- Witness for C8 at a concrete document: removing an identifier not
present in the list. -/
theorem claim8_witness :
    (removeUrlsFromConfig (.doc ⟨.list [.str "b"], 0⟩) ["a"]).file =
      .doc ⟨.list [.str "b"], 0⟩ ∧
    (removeUrlsFromConfig (.doc ⟨.list [.str "b"], 0⟩) ["a"]).wrote = false :=
  (claim8_remove_no_match_idempotent (.doc ⟨.list [.str "b"], 0⟩) ["a"]).1
    (by decide)

/-- Claim C2 (confirmed): of N concurrent invocations racing on the
compare-and-exchange, exactly one wins and the other N−1 are skipped; a
loser logs the skip warning and leaves the guard untouched; a winning round
whose validation succeeds releases the guard back to Idle. -/
theorem claim2_single_flight (n : Nat) (env : CheckEnv) (hn : 0 < n) :
    fireMany n false = (true, 1, n - 1) ∧
    triggerCheck true env =
      ⟨.skipped, true, [.warnMsg "已有检测正在进行，跳过本次检测"]⟩ ∧
    (env.checkErr = none → (triggerCheck false env).guard = false) := by
  refine ⟨?_, rfl, fun h => (triggerCheck_ok env h).2⟩
  obtain ⟨m, rfl⟩ : ∃ m, n = m + 1 := ⟨n - 1, by omega⟩
  simp [fireMany, fireMany_held]

/-- Witness for C2: three racing invocations, one concrete environment. -/
theorem claim2_witness :
    fireMany 3 false = (true, 1, 2) ∧
    triggerCheck true ⟨none, ⟨0, [], [], .absent, .doc ⟨.absent, 0⟩, true⟩⟩ =
      ⟨.skipped, true, [.warnMsg "已有检测正在进行，跳过本次检测"]⟩ ∧
    (triggerCheck false
        ⟨none, ⟨0, [], [], .absent, .doc ⟨.absent, 0⟩, true⟩⟩).guard = false := by
  have h := claim2_single_flight 3
    ⟨none, ⟨0, [], [], .absent, .doc ⟨.absent, 0⟩, true⟩⟩ (by decide)
  exact ⟨h.1, h.2.1, h.2.2 rfl⟩

/-- Claim C3 (confirmed): a manual trigger whose non-blocking send is not
immediately receivable is a pure no-op apart from the busy warning; starting
from a round in flight, the number of additional rounds started never
exceeds the number of round completions in the trace, so a burst of manual
triggers fired while at most one round completes starts at most one
additional round — never one per call. -/
theorem claim3_manual_trigger_collapse :
    (∀ s : SchedState, stepSched s (.manual false) =
      ⟨s.guard, s.started,
        s.logs ++ [.warnMsg "已有检测正在进行，忽略本次触发"]⟩) ∧
    (∀ evs : List SchedEv,
      (runSched ⟨true, 0, []⟩ evs).started ≤ countRoundEnds evs) ∧
    (∀ evs : List SchedEv, countRoundEnds evs ≤ 1 →
      (runSched ⟨true, 0, []⟩ evs).started ≤ 1) := by
  have hb : ∀ evs : List SchedEv,
      (runSched ⟨true, 0, []⟩ evs).started ≤ countRoundEnds evs := by
    intro evs
    have h1 := runSched_potential evs ⟨true, 0, []⟩
    have h2 : (runSched ⟨true, 0, []⟩ evs).started ≤
        schedPotential (runSched ⟨true, 0, []⟩ evs) := by
      unfold schedPotential
      split <;> omega
    have h3 : schedPotential ⟨true, 0, []⟩ = 0 := rfl
    omega
  exact ⟨fun s => rfl, hb, fun evs h => le_trans (hb evs) h⟩

/-- Witness for C3: a burst of ten manual triggers during one in-flight
round starts at most one additional round. -/
theorem claim3_witness :
    (runSched ⟨true, 0, []⟩
      (List.replicate 10 (.manual true))).started ≤ 1 :=
  claim3_manual_trigger_collapse.2.2 (List.replicate 10 (.manual true))
    (by decide)

/-- The rounds of an error-free sequence all complete without terminating
the process. -/
theorem runRounds_ok (envs : List CheckEnv)
    (hok : ∀ x ∈ envs, x.checkErr = none) : runRounds false envs = none := by
  induction envs with
  | nil => rfl
  | cons env rest ih =>
    have h := hok env (List.mem_cons_self env rest)
    have h1 := triggerCheck_ok env h
    simp only [runRounds]
    rw [h1.1, h1.2]
    exact ih (fun x hx => hok x (List.mem_cons_of_mem env hx))

/-- Claim C9 (confirmed): when the validation round errors, the fire handler
logs the error and terminates the process with exit code 1 (non-zero); an
error-free sequence of rounds never terminates the process. -/
theorem claim9_fatal_round_error (env : CheckEnv) (e : String)
    (he : env.checkErr = some e) (envs : List CheckEnv)
    (hok : ∀ x ∈ envs, x.checkErr = none) :
    triggerCheck false env =
      ⟨.fatal 1, true,
        [.errorMsg ("检测代理失败: " ++ ("检测代理失败: " ++ e))]⟩ ∧
    runRounds false envs = none := by
  refine ⟨?_, runRounds_ok envs hok⟩
  unfold triggerCheck checkProxies
  rw [he]
  rfl

/-- Witness for C9: a concrete failing round and a concrete error-free
sequence. -/
theorem claim9_witness :
    triggerCheck false ⟨some "boom", ⟨0, [], [], .absent, .doc ⟨.absent, 0⟩, true⟩⟩ =
      ⟨.fatal 1, true,
        [.errorMsg ("检测代理失败: " ++ ("检测代理失败: " ++ "boom"))]⟩ ∧
    runRounds false [⟨none, ⟨0, [], [], .absent, .doc ⟨.absent, 0⟩, true⟩⟩] = none :=
  claim9_fatal_round_error
    ⟨some "boom", ⟨0, [], [], .absent, .doc ⟨.absent, 0⟩, true⟩⟩ "boom" rfl
    [⟨none, ⟨0, [], [], .absent, .doc ⟨.absent, 0⟩, true⟩⟩]
    (fun x hx => by
      rw [List.mem_singleton.mp hx])

/-- Counterexample to claim C1: threshold 1, one failed source "a", the
configuration's `sub-urls` field present but not a list.  The counts are
updated (step 3 runs) and the eviction set is non-empty, the configuration
edit fails — and `handleSubsLifecycle` returns before `SaveToFile`, so the
ledger is not persisted, contradicting "does not prevent step 6". -/
theorem claim1_counterexample :
    (handleSubsLifecycle ⟨1, [], ["a"], .absent, .doc ⟨.notList, 0⟩, true⟩).recorded
      = true ∧
    (handleSubsLifecycle ⟨1, [], ["a"], .absent, .doc ⟨.notList, 0⟩, true⟩).removeErrored
      = true ∧
    (handleSubsLifecycle ⟨1, [], ["a"], .absent, .doc ⟨.notList, 0⟩, true⟩).persistAttempted
      = false ∧
    (handleSubsLifecycle ⟨1, [], ["a"], .absent, .doc ⟨.notList, 0⟩, true⟩).ret
      = .error ("从配置文件移除URL失败: " ++ "sub-urls字段格式错误") :=
  ⟨rfl, rfl, rfl, rfl⟩

/-- Claim C1 (corrected): a removal error is surfaced to the caller and
logged there (`checkProxies` logs it and still completes the round), but it
aborts the rest of the lifecycle processing: `SaveToFile` is reached exactly
in the rounds where the outcomes were recorded and the configuration edit
did not fail; when the edit fails the updated ledger is not persisted. -/
theorem claim1_remove_error_skips_persist (env : LifecycleEnv) :
    ((handleSubsLifecycle env).recorded = true →
      (handleSubsLifecycle env).removeErrored = false →
      (handleSubsLifecycle env).persistAttempted = true) ∧
    ((handleSubsLifecycle env).removeErrored = true →
      (handleSubsLifecycle env).persistAttempted = false ∧
      ∃ e, (handleSubsLifecycle env).ret = .error e) ∧
    (∀ e, (handleSubsLifecycle env).ret = .error e →
      (checkProxies ⟨none, env⟩).ret = .ok () ∧
      (checkProxies ⟨none, env⟩).logs =
        [.errorMsg ("处理订阅生命周期失败 " ++ e)]) := by
  refine ⟨?_, ?_, ?_⟩
  · simp only [handleSubsLifecycle]
    split
    · simp
    split
    · simp
    split
    · simp
    split
    · simp [saveRet]
    split
    · simp
    · simp [saveRet]
  · simp only [handleSubsLifecycle]
    split
    · simp
    split
    · simp
    split
    · simp
    split
    · simp
    split
    · intro h
      exact ⟨rfl, _, rfl⟩
    · simp
  · intro e he
    simp only [checkProxies]
    rw [he]
    exact ⟨rfl, rfl⟩

/-- Witness for C1's amended form at the counterexample environment: the
edit error is surfaced and persistence is skipped. -/
theorem claim1_witness :
    (handleSubsLifecycle ⟨2, [], ["a", "b"], .parsed (some [("a", 1)]),
        .doc ⟨.notList, 0⟩, true⟩).persistAttempted = false ∧
    ∃ e, (handleSubsLifecycle ⟨2, [], ["a", "b"], .parsed (some [("a", 1)]),
        .doc ⟨.notList, 0⟩, true⟩).ret = .error e :=
  (claim1_remove_error_skips_persist
    ⟨2, [], ["a", "b"], .parsed (some [("a", 1)]), .doc ⟨.notList, 0⟩, true⟩).2.1
    rfl

/-- Claim C10 (confirmed): a state file that exists but cannot be read (a
condition distinct from absence and from unparsable content) makes
`LoadSubsState` return an error and no ledger, and makes the round's
lifecycle processing abort before any count is updated or persisted; this
case is never treated as an empty ledger. -/
theorem claim10_read_error_aborts (env : LifecycleEnv) (m : String)
    (hf : env.stateFile = .readError m) :
    (LoadSubsState env.stateFile).1 =
      .error ("读取订阅状态文件失败: " ++ m) ∧
    (∀ st, (LoadSubsState env.stateFile).1 ≠ .ok st) ∧
    (handleSubsLifecycle env).recorded = false ∧
    (handleSubsLifecycle env).persistAttempted = false ∧
    (handleSubsLifecycle env).state = none ∧
    (0 < env.threshold → (env.successUrls.isEmpty && env.failedUrls.isEmpty) = false →
      (handleSubsLifecycle env).ret =
        .error ("加载订阅状态失败: " ++ ("读取订阅状态文件失败: " ++ m))) := by
  rw [hf]
  refine ⟨rfl, by simp [LoadSubsState], ?_⟩
  simp only [handleSubsLifecycle, hf]
  split
  · rename_i ht
    refine ⟨rfl, rfl, rfl, ?_⟩
    intro ht2
    omega
  split
  · rename_i ht hs
    refine ⟨rfl, rfl, rfl, ?_⟩
    intro _ hs2
    rw [hs] at hs2
    cases hs2
  · exact ⟨rfl, rfl, rfl, fun _ _ => rfl⟩

/-- Witness for C10 at a concrete environment. -/
theorem claim10_witness :
    (LoadSubsState (LifecycleEnv.stateFile
        ⟨1, ["a"], [], .readError "permission denied", .doc ⟨.absent, 0⟩, true⟩)).1 =
      .error ("读取订阅状态文件失败: " ++ "permission denied") ∧
    (handleSubsLifecycle
      ⟨1, ["a"], [], .readError "permission denied", .doc ⟨.absent, 0⟩, true⟩).recorded
      = false ∧
    (handleSubsLifecycle
      ⟨1, ["a"], [], .readError "permission denied", .doc ⟨.absent, 0⟩, true⟩).persistAttempted
      = false ∧
    (handleSubsLifecycle
      ⟨1, ["a"], [], .readError "permission denied", .doc ⟨.absent, 0⟩, true⟩).ret =
      .error ("加载订阅状态失败: " ++ ("读取订阅状态文件失败: " ++ "permission denied")) := by
  have h := claim10_read_error_aborts
    ⟨1, ["a"], [], .readError "permission denied", .doc ⟨.absent, 0⟩, true⟩
    "permission denied" rfl
  exact ⟨h.1, h.2.2.1, h.2.2.2.1, h.2.2.2.2.2 (by decide) (by decide)⟩
